import Mathlib

/-!
Verification of the EventHub application (src/server.js) against its
natural-language specification.  The JavaScript request handlers are shallowly
embedded as pure Lean functions over an explicit database state; the handful of
library primitives the handlers rely on (JavaScript string trimming and
lower-casing, the Number conversion, bcrypt, the SQLite datetime function) are
modelled on the input subset the application exercises, as documented on each
definition.
-/

namespace EventHub

/-- Characters treated as whitespace by the JavaScript trim operation
(restricted to the ASCII whitespace characters that can occur in form input). -/
def jsWhitespaceChar (c : Char) : Bool :=
  c == ' ' || c == '\t' || c == '\n' || c == '\r'

/-- Model of the JavaScript String.prototype.trim operation: remove leading and
trailing whitespace. -/
def jsTrim (s : String) : String :=
  String.mk (((s.toList.dropWhile jsWhitespaceChar).reverse.dropWhile jsWhitespaceChar).reverse)

/-- Model of the JavaScript String.prototype.toLowerCase operation, mapping the
ASCII lower-casing function over the characters. -/
def jsToLower (s : String) : String :=
  String.mk (s.toList.map Char.toLower)

/-- Finite JavaScript number arising from converting a decimal form string: the
exact value num / 10 ^ exp.  The representation is not normalised; all
comparisons go through the cross-multiplied integer values. -/
structure JSFinite where
  num : Int
  exp : Nat
deriving DecidableEq

/-- Embedding of a natural number as a JavaScript number. -/
def JSFinite.ofNat (n : Nat) : JSFinite := ⟨(n : Int), 0⟩

/-- Less-than on finite JavaScript numbers (comparison of the exact values). -/
def JSFinite.lt (a b : JSFinite) : Bool :=
  decide (a.num * (10 : Int) ^ b.exp < b.num * (10 : Int) ^ a.exp)

/-- Less-or-equal on finite JavaScript numbers (comparison of the exact
values). -/
def JSFinite.le (a b : JSFinite) : Bool :=
  decide (a.num * (10 : Int) ^ b.exp ≤ b.num * (10 : Int) ^ a.exp)

/-- Equality of the exact values of two finite JavaScript numbers. -/
def JSFinite.sameValue (a b : JSFinite) : Prop :=
  a.num * (10 : Int) ^ b.exp = b.num * (10 : Int) ^ a.exp

/-- Whether a finite JavaScript number is an integer. -/
def JSFinite.isInt (a : JSFinite) : Prop :=
  a.num % (10 : Int) ^ a.exp = 0

/-- Numeric value of a list of decimal digit characters. -/
def digitsVal (cs : List Char) : Nat :=
  cs.foldl (fun a c => a * 10 + (c.toNat - 48)) 0

/-- Parse an unsigned decimal numeral: either a digit sequence or two digit
sequences separated by one decimal point (at least one digit in total). -/
def parseUnsignedDecimal (cs : List Char) : Option JSFinite :=
  if !cs.isEmpty && cs.all Char.isDigit then
    some ⟨(digitsVal cs : Int), 0⟩
  else
    match List.splitOn '.' cs with
    | [a, b] =>
      if a.all Char.isDigit && b.all Char.isDigit && !(a.isEmpty && b.isEmpty) then
        some ⟨(digitsVal a * 10 ^ b.length + digitsVal b : Int), b.length⟩
      else none
    | _ => none

/-- Model of the JavaScript Number conversion on form strings, restricted to
the plain decimal grammar (optional minus sign, digit sequences with at most
one decimal point); the empty or all-whitespace string converts to 0 and
anything outside the grammar to NaN, represented as none. -/
def parseJSNumber (s : String) : Option JSFinite :=
  match (jsTrim s).toList with
  | [] => some ⟨0, 0⟩
  | '-' :: rest => (parseUnsignedDecimal rest).map (fun f => ⟨-f.num, f.exp⟩)
  | cs => parseUnsignedDecimal cs

/-- Model of bcrypt.hash with a fixed cost factor: an injective one-way
encoding of the password.  The salt is abstracted away so that hashing is
deterministic, which preserves exactly the property the handlers rely on:
compare succeeds precisely on the hashed password. -/
def bcryptHash (password : String) : String :=
  "$2b$12$" ++ password

/-- Model of bcrypt.compare: succeeds exactly when the stored digest is the
hash of the candidate password. -/
def bcryptCompare (password digest : String) : Bool :=
  digest == bcryptHash password

/-- Row of the users table. -/
structure User where
  id : Nat
  name : String
  email : String
  password_hash : String
deriving DecidableEq

/-- Row of the events table. -/
structure Event where
  id : Nat
  host_user_id : Nat
  title : String
  description : String
  location : String
  starts_at : String
  capacity : JSFinite
deriving DecidableEq

/-- Row of the registrations table. -/
structure Registration where
  id : Nat
  event_id : Nat
  user_id : Nat
deriving DecidableEq

/-- State of the SQLite database: the three tables together with the next
AUTOINCREMENT value of each. -/
structure DB where
  users : List User
  events : List Event
  registrations : List Registration
  nextUserId : Nat
  nextEventId : Nat
  nextRegId : Nat
deriving DecidableEq

/-- Live registration count of an event: the correlated subquery
SELECT COUNT(*) FROM registrations r WHERE r.event_id = e.id. -/
def regCount (db : DB) (eventId : Nat) : Nat :=
  (db.registrations.filter (fun r => r.event_id == eventId)).length

/-- Whether a user already holds a registration for an event; an insert into
registrations raises a UNIQUE(event_id, user_id) constraint violation exactly
when this holds. -/
def isRegistered (db : DB) (eventId userId : Nat) : Bool :=
  db.registrations.any (fun r => r.event_id == eventId && r.user_id == userId)

/-- Result row of the event queries: the event joined with the name of its
host and its live registration count. -/
structure EventRow where
  event : Event
  host_name : String
  reg_count : Nat
deriving DecidableEq

/-- The single-event query used by the detail and register routes: the event
with the given id joined with its host and its registration count; none when
the event (or its host, since the join is inner) is absent. -/
def getEventRow (db : DB) (eventId : Nat) : Option EventRow :=
  (db.events.find? (fun e => e.id == eventId)).bind fun e =>
    (db.users.find? (fun u => u.id == e.host_user_id)).map fun u =>
      ⟨e, u.name, regCount db e.id⟩

/-- The unordered rows of the event-list query: every event joined with its
host and its registration count. -/
def joinRows (db : DB) : List EventRow :=
  db.events.filterMap fun e =>
    (db.users.find? (fun u => u.id == e.host_user_id)).map fun u =>
      ⟨e, u.name, regCount db e.id⟩

/-- Outcome of POST /signup, as rendered to the user. -/
inductive SignUpResult where
  | validationError (message : String)
  | duplicateEmail (message : String)
  | created (userId : Nat)
deriving DecidableEq

/-- Handler of POST /signup: trim the name, trim and lower-case the email,
reject empty fields, reject an already-stored email, otherwise insert the user
with the bcrypt hash of the password. -/
def signUp (db : DB) (name email password : Option String) : SignUpResult × DB :=
  let n := jsTrim (name.getD "")
  let e := jsToLower (jsTrim (email.getD ""))
  let p := password.getD ""
  if n == "" || e == "" || p == "" then
    (SignUpResult.validationError "Fill all fields.", db)
  else
    match db.users.find? (fun u => u.email == e) with
    | some _ => (SignUpResult.duplicateEmail "Email already registered.", db)
    | none =>
      let u : User := ⟨db.nextUserId, n, e, bcryptHash p⟩
      (SignUpResult.created db.nextUserId,
        { db with users := db.users ++ [u], nextUserId := db.nextUserId + 1 })

/-- Outcome of POST /login. -/
inductive LogInResult where
  | invalidCredentials (message : String)
  | success (userId : Nat)
deriving DecidableEq

/-- Normalisation applied to the email field by both the signup and the login
handlers. -/
def normEmail (email : Option String) : String :=
  jsToLower (jsTrim (email.getD ""))

/-- Handler of POST /login: look the normalised email up and compare the
password against the stored digest; both failure branches render the same
generic message. -/
def logIn (db : DB) (email password : Option String) : LogInResult :=
  let e := normEmail email
  let p := password.getD ""
  match db.users.find? (fun u => u.email == e) with
  | none => LogInResult.invalidCredentials "Invalid email or password."
  | some u =>
    if bcryptCompare p u.password_hash then LogInResult.success u.id
    else LogInResult.invalidCredentials "Invalid email or password."

/-- Form body of POST /events/new; absent fields are none. -/
structure CreateEventBody where
  title : Option String
  description : Option String
  location : Option String
  starts_at : Option String
  capacity : Option String
deriving DecidableEq

/-- Outcome of POST /events/new. -/
inductive CreateEventResult where
  | validationError (message : String)
  | created (eventId : Nat)
deriving DecidableEq

/-- Whether a form field is falsy in JavaScript: absent or the empty string. -/
def falsyOpt : Option String → Bool
  | none => true
  | some s => s == ""

/-- Value of the expression Number(req.body.capacity or-else 50): an absent or
empty capacity field falls back to the literal 50 before conversion. -/
def capacityValue (capacity : Option String) : Option JSFinite :=
  match capacity with
  | none => some ⟨50, 0⟩
  | some s => if s == "" then some ⟨50, 0⟩ else parseJSNumber s

/-- Handler of POST /events/new: trim title, description and location; reject
when any of those trims to empty or the raw starts_at field is falsy; reject a
capacity that is NaN, below 1 or above 5000 (this mirrors the check
not-isFinite or capacity below 1 or capacity above 5000, so finiteness and
range are checked but integrality is not); otherwise insert the event, storing
the raw starts_at string. -/
def createEvent (db : DB) (hostId : Nat) (body : CreateEventBody) : CreateEventResult × DB :=
  let title := jsTrim (body.title.getD "")
  let description := jsTrim (body.description.getD "")
  let location := jsTrim (body.location.getD "")
  let starts_at := body.starts_at
  let capacity := capacityValue body.capacity
  if title == "" || description == "" || location == "" || falsyOpt starts_at then
    (CreateEventResult.validationError "Fill all required fields.", db)
  else
    match capacity with
    | none => (CreateEventResult.validationError "Capacity must be 1–5000.", db)
    | some c =>
      if JSFinite.lt c ⟨1, 0⟩ || JSFinite.lt ⟨5000, 0⟩ c then
        (CreateEventResult.validationError "Capacity must be 1–5000.", db)
      else
        let e : Event :=
          ⟨db.nextEventId, hostId, title, description, location, starts_at.getD "", c⟩
        (CreateEventResult.created db.nextEventId,
          { db with events := db.events ++ [e], nextEventId := db.nextEventId + 1 })

/-- Outcome of one attempt to send the confirmation email. -/
inductive EmailResult where
  | skipped
  | sent
  | failed
deriving DecidableEq

/-- Model of sendRegistrationEmail: when no SMTP transport is configured the
function returns at once without sending (a trivially successful no-op);
otherwise the synchronous send either succeeds or fails, abstracted by the
sendFails flag. -/
def sendRegistrationEmail (smtpConfigured sendFails : Bool) : EmailResult :=
  if !smtpConfigured then EmailResult.skipped
  else if sendFails then EmailResult.failed
  else EmailResult.sent

/-- Outcome of POST /events/:id/register, as rendered to the user. -/
inductive RegisterResult where
  | notFound
  | capacityExceeded
  | alreadyRegistered
  | registered
deriving DecidableEq

/-- Full observable outcome of POST /events/:id/register: the rendered result,
the outcome of the email attempt when one was made, and the database state
afterwards. -/
structure RegisterOutcome where
  result : RegisterResult
  emailResult : Option EmailResult
  db : DB
deriving DecidableEq

/-- Handler of POST /events/:id/register: load the event row (404 when absent);
render capacityExceeded when reg_count is at least capacity, before any insert;
attempt the insert, a UNIQUE constraint violation being caught and rendered as
alreadyRegistered; after a successful insert attempt the confirmation email,
whose failure is caught and logged, the success page being rendered and the
inserted row kept either way. -/
def registerForEvent (db : DB) (eventId userId : Nat) (smtpConfigured sendFails : Bool) :
    RegisterOutcome :=
  match getEventRow db eventId with
  | none => ⟨RegisterResult.notFound, none, db⟩
  | some row =>
    if JSFinite.le row.event.capacity (JSFinite.ofNat row.reg_count) then
      ⟨RegisterResult.capacityExceeded, none, db⟩
    else if isRegistered db eventId userId then
      ⟨RegisterResult.alreadyRegistered, none, db⟩
    else
      let db1 : DB :=
        { db with
          registrations := db.registrations ++ [⟨db.nextRegId, eventId, userId⟩],
          nextRegId := db.nextRegId + 1 }
      ⟨RegisterResult.registered, some (sendRegistrationEmail smtpConfigured sendFails), db1⟩

/-- Lexicographic order on character lists by code point, which for UTF-8
encoded strings agrees with the byte order the SQLite BINARY collation uses. -/
def charListLe : List Char → List Char → Bool
  | [], _ => true
  | _ :: _, [] => false
  | a :: as, b :: bs =>
    if a.toNat = b.toNat then charListLe as bs else decide (a.toNat < b.toNat)

/-- Lexicographic (BINARY collation) order on strings. -/
def strLe (s t : String) : Bool :=
  charListLe s.toList t.toList

/-- Value of two decimal digit characters. -/
def twoDigitVal (a b : Char) : Nat :=
  (a.toNat - 48) * 10 + (b.toNat - 48)

/-- Model of the SQLite datetime function restricted to the timestamp shapes
the application stores: a 19-character YYYY-MM-DD HH:MM:SS string whose date
separator may also be the letter T, normalised to the space-separated form;
every other string is treated as unparseable and yields NULL, represented as
none. -/
def sqliteDatetime (s : String) : Option String :=
  match s.toList with
  | [y1, y2, y3, y4, h1, mo1, mo2, h2, d1, d2, sep, hh1, hh2, c1, mi1, mi2, c2, se1, se2] =>
    if ([y1, y2, y3, y4, mo1, mo2, d1, d2, hh1, hh2, mi1, mi2, se1, se2].all Char.isDigit
        && h1 == '-' && h2 == '-' && c1 == ':' && c2 == ':'
        && (sep == ' ' || sep == 'T')
        && decide (1 ≤ twoDigitVal mo1 mo2) && decide (twoDigitVal mo1 mo2 ≤ 12)
        && decide (1 ≤ twoDigitVal d1 d2) && decide (twoDigitVal d1 d2 ≤ 31)
        && decide (twoDigitVal hh1 hh2 ≤ 23)
        && decide (twoDigitVal mi1 mi2 ≤ 59)
        && decide (twoDigitVal se1 se2 ≤ 59)) then
      some (String.mk [y1, y2, y3, y4, '-', mo1, mo2, '-', d1, d2, ' ',
        hh1, hh2, ':', mi1, mi2, ':', se1, se2])
    else none
  | _ => none

/-- Order on the sort keys produced by datetime: NULL sorts before every
string, and strings compare under the BINARY collation. -/
def keyLe : Option String → Option String → Bool
  | none, _ => true
  | some _, none => false
  | some a, some b => strLe a b

/-- Sort key of an event-list row: datetime of the stored starts_at string. -/
def eventKey (r : EventRow) : Option String :=
  sqliteDatetime r.event.starts_at

/-- Row order of the event-list query, ORDER BY datetime(e.starts_at) ASC. -/
def rowLe (r1 r2 : EventRow) : Bool :=
  keyLe (eventKey r1) (eventKey r2)

/-- Handler of GET /: every event joined with its host and registration count,
ordered ascending by datetime of the stored starts_at value. -/
def listEvents (db : DB) : List EventRow :=
  List.insertionSort (fun a b => rowLe a b = true) (joinRows db)

/-- Follows the wording of the specification, for comparison with listEvents:
the event list ordered by plain lexicographic (string) order on the stored
starts_at representation itself. -/
def listEventsSpecLex (db : DB) : List EventRow :=
  List.insertionSort (fun a b => strLe a.event.starts_at b.event.starts_at = true) (joinRows db)

/-- Every stored email is fixed by lower-casing. -/
def emailsLower (db : DB) : Prop :=
  ∀ u ∈ db.users, jsToLower u.email = u.email

/-- No two stored users share an email. -/
def emailsUnique (db : DB) : Prop :=
  (db.users.map User.email).Nodup

/-- Database with one user and no events, used to instantiate theorems. -/
def dbSeed : DB :=
  ⟨[⟨1, "Alice", "alice@x.com", bcryptHash "pw"⟩], [], [], 2, 1, 1⟩

/-- Database with one user and one empty event of capacity 1. -/
def dbCapOne : DB :=
  ⟨[⟨1, "Alice", "alice@x.com", bcryptHash "pw"⟩],
   [⟨1, 1, "Meetup", "Desc", "Loc", "2030-01-01 10:00:00", ⟨1, 0⟩⟩],
   [], 2, 2, 1⟩

/-- The event row the queries return for the event of dbCapOne. -/
def rowCapOne : EventRow :=
  ⟨⟨1, 1, "Meetup", "Desc", "Loc", "2030-01-01 10:00:00", ⟨1, 0⟩⟩, "Alice", 0⟩

/-- Database with one user and one empty event of capacity 5. -/
def dbCapFive : DB :=
  ⟨[⟨1, "Alice", "alice@x.com", bcryptHash "pw"⟩],
   [⟨1, 1, "Meetup", "Desc", "Loc", "2030-01-01 10:00:00", ⟨5, 0⟩⟩],
   [], 2, 2, 1⟩

/-- The event row the queries return for the event of dbCapFive. -/
def rowCapFive : EventRow :=
  ⟨⟨1, 1, "Meetup", "Desc", "Loc", "2030-01-01 10:00:00", ⟨5, 0⟩⟩, "Alice", 0⟩

/-- Database whose single event (capacity 1) is already full with a
registration held by user 1. -/
def dbFullByOne : DB :=
  ⟨[⟨1, "Alice", "alice@x.com", bcryptHash "pw"⟩],
   [⟨1, 1, "Meetup", "Desc", "Loc", "2030-01-01 10:00:00", ⟨1, 0⟩⟩],
   [⟨1, 1, 1⟩], 2, 2, 2⟩

/-- The event row the queries return for the event of dbFullByOne. -/
def rowFullByOne : EventRow :=
  ⟨⟨1, 1, "Meetup", "Desc", "Loc", "2030-01-01 10:00:00", ⟨1, 0⟩⟩, "Alice", 1⟩

/-- Database with two events whose stored timestamps order differently under
datetime parsing and under plain string comparison: the first uses the T
separator, the second the space separator one second later. -/
def dbTwoTimes : DB :=
  ⟨[⟨1, "Alice", "alice@x.com", bcryptHash "pw"⟩],
   [⟨1, 1, "A", "D", "L", "2030-01-02T00:00:00", ⟨50, 0⟩⟩,
    ⟨2, 1, "B", "D", "L", "2030-01-02 00:00:01", ⟨50, 0⟩⟩],
   [], 2, 3, 1⟩

/-- Event-creation body with fixed valid text fields and a chosen capacity. -/
def bodyCap (capacity : Option String) : CreateEventBody :=
  ⟨some "T", some "D", some "L", some "2030-01-01 10:00:00", capacity⟩

end EventHub

namespace EventHub

theorem JSFinite.le_iff (a b : JSFinite) :
    JSFinite.le a b = true ↔ a.num * (10 : Int) ^ b.exp ≤ b.num * (10 : Int) ^ a.exp := by
  simp [JSFinite.le]

theorem JSFinite.lt_iff (a b : JSFinite) :
    JSFinite.lt a b = true ↔ a.num * (10 : Int) ^ b.exp < b.num * (10 : Int) ^ a.exp := by
  simp [JSFinite.lt]

theorem JSFinite.sameValue_symm {a b : JSFinite} (h : a.sameValue b) : b.sameValue a :=
  h.symm

theorem le_ofNat_false_of_sameValue_succ (cap : JSFinite) (count : Nat)
    (h : cap.sameValue (JSFinite.ofNat (count + 1))) :
    JSFinite.le cap (JSFinite.ofNat count) = false := by
  have hp : (0 : Int) < 10 ^ cap.exp := by positivity
  simp only [JSFinite.sameValue, JSFinite.ofNat, pow_zero, mul_one] at h
  rw [Bool.eq_false_iff, Ne, JSFinite.le_iff]
  simp only [JSFinite.ofNat, pow_zero, mul_one]
  intro hle
  push_cast at h hle
  nlinarith

theorem le_ofNat_false_of_lt_succ (cap : JSFinite) (count : Nat)
    (h : JSFinite.lt (JSFinite.ofNat (count + 1)) cap = true) :
    JSFinite.le cap (JSFinite.ofNat count) = false ∧
    JSFinite.le cap (JSFinite.ofNat (count + 1)) = false := by
  have hp : (0 : Int) < 10 ^ cap.exp := by positivity
  rw [JSFinite.lt_iff] at h
  simp only [JSFinite.ofNat, pow_zero, mul_one] at h
  constructor <;>
  · rw [Bool.eq_false_iff, Ne, JSFinite.le_iff]
    simp only [JSFinite.ofNat, pow_zero, mul_one]
    intro hle
    push_cast at h hle
    nlinarith

theorem getEventRow_eq (db : DB) (eventId : Nat) (row : EventRow)
    (h : getEventRow db eventId = some row) :
    ∃ e u, db.events.find? (fun e => e.id == eventId) = some e ∧
      db.users.find? (fun u => u.id == e.host_user_id) = some u ∧
      e.id = eventId ∧ row = ⟨e, u.name, regCount db eventId⟩ := by
  unfold getEventRow at h
  cases he : db.events.find? (fun e => e.id == eventId) with
  | none => rw [he] at h; simp at h
  | some e =>
    rw [he, Option.some_bind] at h
    cases hu : db.users.find? (fun u => u.id == e.host_user_id) with
    | none => rw [hu] at h; simp at h
    | some u =>
      rw [hu, Option.map_some'] at h
      have heid : e.id = eventId := by
        have := List.find?_some he
        simpa using this
      exact ⟨e, u, rfl, hu, heid, by rw [← Option.some.inj h, heid]⟩

theorem getEventRow_reg_count (db : DB) (eventId : Nat) (row : EventRow)
    (h : getEventRow db eventId = some row) : row.reg_count = regCount db eventId := by
  obtain ⟨e, u, -, -, -, hrow⟩ := getEventRow_eq db eventId row h
  rw [hrow]

theorem regCount_insert (db : DB) (eventId userId n m : Nat) :
    regCount { db with registrations := db.registrations ++ [⟨n, eventId, userId⟩],
                       nextRegId := m } eventId
      = regCount db eventId + 1 := by
  simp [regCount, List.filter_append]

theorem isRegistered_insert (db : DB) (eventId userId n m : Nat) :
    isRegistered { db with registrations := db.registrations ++ [⟨n, eventId, userId⟩],
                           nextRegId := m } eventId userId = true := by
  simp [isRegistered, List.any_append]

theorem getEventRow_insert (db : DB) (eventId userId n m : Nat) (row : EventRow)
    (h : getEventRow db eventId = some row) :
    getEventRow { db with registrations := db.registrations ++ [⟨n, eventId, userId⟩],
                          nextRegId := m } eventId
      = some ⟨row.event, row.host_name, row.reg_count + 1⟩ := by
  obtain ⟨e, u, he, hu, heid, hrow⟩ := getEventRow_eq db eventId row h
  subst hrow
  unfold getEventRow
  have he2 : ({ db with registrations := db.registrations ++ [⟨n, eventId, userId⟩],
                        nextRegId := m } : DB).events = db.events := rfl
  have hu2 : ({ db with registrations := db.registrations ++ [⟨n, eventId, userId⟩],
                        nextRegId := m } : DB).users = db.users := rfl
  rw [he2, hu2, he, Option.some_bind, hu, Option.map_some', heid, regCount_insert]

theorem registerForEvent_success (db : DB) (eventId userId : Nat) (s f : Bool) (row : EventRow)
    (hrow : getEventRow db eventId = some row)
    (hle : JSFinite.le row.event.capacity (JSFinite.ofNat row.reg_count) = false)
    (hreg : isRegistered db eventId userId = false) :
    registerForEvent db eventId userId s f =
      ⟨RegisterResult.registered, some (sendRegistrationEmail s f),
        { db with registrations := db.registrations ++ [⟨db.nextRegId, eventId, userId⟩],
                  nextRegId := db.nextRegId + 1 }⟩ := by
  simp [registerForEvent, hrow, hle, hreg]

/-- C1: for an existing event and a user not yet registered for it, when the
registration count is at least the capacity the register handler renders
capacityExceeded and leaves the database unchanged, and when the count equals
capacity minus one it succeeds and the resulting registration count equals the
capacity. -/
theorem register_capacity_boundary (db : DB) (eventId userId : Nat) (row : EventRow)
    (smtpConfigured sendFails : Bool)
    (hrow : getEventRow db eventId = some row)
    (hnew : isRegistered db eventId userId = false) :
    (JSFinite.le row.event.capacity (JSFinite.ofNat row.reg_count) = true →
      (registerForEvent db eventId userId smtpConfigured sendFails).result
          = RegisterResult.capacityExceeded ∧
      (registerForEvent db eventId userId smtpConfigured sendFails).db = db) ∧
    (row.event.capacity.sameValue (JSFinite.ofNat (row.reg_count + 1)) →
      (registerForEvent db eventId userId smtpConfigured sendFails).result
          = RegisterResult.registered ∧
      (JSFinite.ofNat
          (regCount (registerForEvent db eventId userId smtpConfigured sendFails).db
            eventId)).sameValue row.event.capacity) := by
  constructor
  · intro hfull
    simp [registerForEvent, hrow, hfull]
  · intro hval
    have hle := le_ofNat_false_of_sameValue_succ _ _ hval
    rw [registerForEvent_success db eventId userId _ _ row hrow hle hnew]
    refine ⟨rfl, ?_⟩
    have hrc : row.reg_count = regCount db eventId := getEventRow_reg_count db eventId row hrow
    have hc := regCount_insert db eventId userId db.nextRegId (db.nextRegId + 1)
    simp only [hc, ← hrc]
    exact JSFinite.sameValue_symm hval

/-- Witness for C1 at a concrete database: an empty event of capacity 1, whose
count 0 equals capacity minus one, so the second branch applies. -/
theorem register_capacity_boundary_witness :
    getEventRow dbCapOne 1 = some rowCapOne ∧
    isRegistered dbCapOne 1 1 = false ∧
    ((JSFinite.le rowCapOne.event.capacity (JSFinite.ofNat rowCapOne.reg_count) = true →
      (registerForEvent dbCapOne 1 1 false false).result = RegisterResult.capacityExceeded ∧
      (registerForEvent dbCapOne 1 1 false false).db = dbCapOne) ∧
    (rowCapOne.event.capacity.sameValue (JSFinite.ofNat (rowCapOne.reg_count + 1)) →
      (registerForEvent dbCapOne 1 1 false false).result = RegisterResult.registered ∧
      (JSFinite.ofNat
          (regCount (registerForEvent dbCapOne 1 1 false false).db 1)).sameValue
        rowCapOne.event.capacity)) :=
  ⟨by decide, by decide,
    register_capacity_boundary dbCapOne 1 1 rowCapOne false false (by decide) (by decide)⟩

/-- C9: when a user is already registered for an event whose count has reached
capacity, the register handler renders capacityExceeded, not alreadyRegistered:
the capacity check runs before the duplicate check. -/
theorem register_full_precedence (db : DB) (eventId userId : Nat) (row : EventRow)
    (smtpConfigured sendFails : Bool)
    (hrow : getEventRow db eventId = some row)
    (hreg : isRegistered db eventId userId = true)
    (hfull : JSFinite.le row.event.capacity (JSFinite.ofNat row.reg_count) = true) :
    (registerForEvent db eventId userId smtpConfigured sendFails).result
      = RegisterResult.capacityExceeded := by
  simp [registerForEvent, hrow, hfull]

/-- Witness for C9: user 1 already holds the single registration of a
capacity-1 event and still receives the capacity-exceeded outcome. -/
theorem register_full_precedence_witness :
    getEventRow dbFullByOne 1 = some rowFullByOne ∧
    isRegistered dbFullByOne 1 1 = true ∧
    JSFinite.le rowFullByOne.event.capacity (JSFinite.ofNat rowFullByOne.reg_count) = true ∧
    (registerForEvent dbFullByOne 1 1 false false).result = RegisterResult.capacityExceeded :=
  ⟨by decide, by decide, by decide,
    register_full_precedence dbFullByOne 1 1 rowFullByOne false false
      (by decide) (by decide) (by decide)⟩

/-- Counterexample to C2 as stated: the event of dbCapOne has spare capacity
(count 0, capacity 1) and user 1 is not registered, the first registration
succeeds, yet the second attempt renders capacityExceeded rather than
alreadyRegistered, because the capacity check runs first and the event is now
full. -/
theorem register_twice_counterexample :
    isRegistered dbCapOne 1 1 = false ∧
    JSFinite.lt (JSFinite.ofNat (regCount dbCapOne 1)) ((⟨1, 0⟩ : JSFinite)) = true ∧
    (registerForEvent dbCapOne 1 1 false false).result = RegisterResult.registered ∧
    (registerForEvent (registerForEvent dbCapOne 1 1 false false).db 1 1 false false).result
        = RegisterResult.capacityExceeded ∧
    (registerForEvent (registerForEvent dbCapOne 1 1 false false).db 1 1 false false).result
        ≠ RegisterResult.alreadyRegistered := by
  decide

/-- C2 amended: for a user not yet registered and an event that keeps spare
capacity even after the first registration (count + 1 below capacity), the
first registration succeeds and the second attempt renders alreadyRegistered
and leaves the registration table unchanged; when the first registration fills
the event exactly, the second attempt instead renders capacityExceeded. -/
theorem register_twice_amended (db : DB) (eventId userId : Nat) (row : EventRow)
    (s1 f1 s2 f2 : Bool)
    (hrow : getEventRow db eventId = some row)
    (hnew : isRegistered db eventId userId = false)
    (hspare : JSFinite.lt (JSFinite.ofNat (row.reg_count + 1)) row.event.capacity = true) :
    (registerForEvent db eventId userId s1 f1).result = RegisterResult.registered ∧
    (registerForEvent (registerForEvent db eventId userId s1 f1).db eventId userId s2 f2).result
        = RegisterResult.alreadyRegistered ∧
    (registerForEvent (registerForEvent db eventId userId s1 f1).db eventId userId s2 f2).db
        = (registerForEvent db eventId userId s1 f1).db := by
  obtain ⟨hle0, hle1⟩ := le_ofNat_false_of_lt_succ _ _ hspare
  rw [registerForEvent_success db eventId userId s1 f1 row hrow hle0 hnew]
  have hrow1 := getEventRow_insert db eventId userId db.nextRegId (db.nextRegId + 1) row hrow
  have hreg1 := isRegistered_insert db eventId userId db.nextRegId (db.nextRegId + 1)
  refine ⟨rfl, ?_, ?_⟩ <;> simp [registerForEvent, hrow1, hle1, hreg1]

/-- Witness for C2 amended: event of capacity 5, first registration succeeds,
second renders alreadyRegistered with the table unchanged. -/
theorem register_twice_amended_witness :
    getEventRow dbCapFive 1 = some rowCapFive ∧
    isRegistered dbCapFive 1 1 = false ∧
    JSFinite.lt (JSFinite.ofNat (rowCapFive.reg_count + 1)) rowCapFive.event.capacity = true ∧
    ((registerForEvent dbCapFive 1 1 false false).result = RegisterResult.registered ∧
    (registerForEvent (registerForEvent dbCapFive 1 1 false false).db 1 1 false false).result
        = RegisterResult.alreadyRegistered ∧
    (registerForEvent (registerForEvent dbCapFive 1 1 false false).db 1 1 false false).db
        = (registerForEvent dbCapFive 1 1 false false).db) :=
  ⟨by decide, by decide, by decide,
    register_twice_amended dbCapFive 1 1 rowCapFive false false false false
      (by decide) (by decide) (by decide)⟩

/-- C8: sending the confirmation email with no SMTP transport configured is a
trivially successful no-op, and neither the configuration nor a send failure
changes the rendered result or the stored data: after a successful insert the
registration row is present no matter how the email attempt went. -/
theorem email_best_effort (db : DB) (eventId userId : Nat) (smtpConfigured sendFails : Bool) :
    sendRegistrationEmail false sendFails = EmailResult.skipped ∧
    (registerForEvent db eventId userId smtpConfigured sendFails).result
        = (registerForEvent db eventId userId false false).result ∧
    (registerForEvent db eventId userId smtpConfigured sendFails).db
        = (registerForEvent db eventId userId false false).db ∧
    ((registerForEvent db eventId userId smtpConfigured sendFails).result
        = RegisterResult.registered →
      isRegistered (registerForEvent db eventId userId smtpConfigured sendFails).db
        eventId userId = true) := by
  refine ⟨rfl, ?_⟩
  unfold registerForEvent
  cases h : getEventRow db eventId with
  | none => simp
  | some row =>
    by_cases hle : JSFinite.le row.event.capacity (JSFinite.ofNat row.reg_count) = true
    · simp [hle]
    · rw [Bool.not_eq_true] at hle
      by_cases hreg : isRegistered db eventId userId = true
      · simp [hle, hreg]
      · rw [Bool.not_eq_true] at hreg
        simp [hle, hreg, isRegistered_insert]

/-- Witness for C8 at a concrete registration that succeeds: the outcome with
SMTP configured and a failing send matches the outcome without SMTP, and the
inserted row is present. -/
theorem email_best_effort_witness :
    (sendRegistrationEmail false true = EmailResult.skipped ∧
    (registerForEvent dbCapFive 1 1 true true).result
        = (registerForEvent dbCapFive 1 1 false false).result ∧
    (registerForEvent dbCapFive 1 1 true true).db
        = (registerForEvent dbCapFive 1 1 false false).db ∧
    ((registerForEvent dbCapFive 1 1 true true).result = RegisterResult.registered →
      isRegistered (registerForEvent dbCapFive 1 1 true true).db 1 1 = true)) ∧
    (registerForEvent dbCapFive 1 1 true true).result = RegisterResult.registered :=
  ⟨email_best_effort dbCapFive 1 1 true true, by decide⟩

theorem createEvent_textOk (db : DB) (hostId : Nat) (body : CreateEventBody)
    (htitle : jsTrim (body.title.getD "") ≠ "")
    (hdesc : jsTrim (body.description.getD "") ≠ "")
    (hloc : jsTrim (body.location.getD "") ≠ "")
    (hstarts : falsyOpt body.starts_at = false) :
    createEvent db hostId body =
      match capacityValue body.capacity with
      | none => (CreateEventResult.validationError "Capacity must be 1–5000.", db)
      | some c =>
        if JSFinite.lt c ⟨1, 0⟩ || JSFinite.lt ⟨5000, 0⟩ c then
          (CreateEventResult.validationError "Capacity must be 1–5000.", db)
        else
          (CreateEventResult.created db.nextEventId,
            { db with
              events := db.events ++
                [⟨db.nextEventId, hostId, jsTrim (body.title.getD ""),
                  jsTrim (body.description.getD ""), jsTrim (body.location.getD ""),
                  body.starts_at.getD "", c⟩],
              nextEventId := db.nextEventId + 1 }) := by
  have h1 : (jsTrim (body.title.getD "") == "") = false := beq_eq_false_iff_ne.mpr htitle
  have h2 : (jsTrim (body.description.getD "") == "") = false := beq_eq_false_iff_ne.mpr hdesc
  have h3 : (jsTrim (body.location.getD "") == "") = false := beq_eq_false_iff_ne.mpr hloc
  simp [createEvent, h1, h2, h3, hstarts]

/-- Counterexample to C3 as stated: the capacity input 2.5 converts to the
finite non-integer number 25/10, and creation succeeds instead of failing with
a validation error. -/
theorem createEvent_noninteger_capacity_counterexample :
    parseJSNumber "2.5" = some ⟨25, 1⟩ ∧
    ¬ (⟨25, 1⟩ : JSFinite).isInt ∧
    (createEvent dbSeed 1 (bodyCap (some "2.5"))).1 = CreateEventResult.created 1 := by
  refine ⟨by decide, ?_, by decide⟩
  intro h
  simp only [JSFinite.isInt] at h
  omega

/-- C3 amended: with valid text fields, creation succeeds exactly when the
capacity field converts to a finite number between 1 and 5000 inclusive
(integrality is not checked, as the counterexample shows); in particular the
inputs 0 and 5001 fail with the validation error and the inputs 1 and 5000
succeed. -/
theorem createEvent_capacity_validation (db : DB) (hostId : Nat) (body : CreateEventBody)
    (htitle : jsTrim (body.title.getD "") ≠ "")
    (hdesc : jsTrim (body.description.getD "") ≠ "")
    (hloc : jsTrim (body.location.getD "") ≠ "")
    (hstarts : falsyOpt body.starts_at = false) :
    ((createEvent db hostId body).1 = CreateEventResult.created db.nextEventId ↔
      ∃ c, capacityValue body.capacity = some c ∧
        JSFinite.lt c ⟨1, 0⟩ = false ∧ JSFinite.lt ⟨5000, 0⟩ c = false) ∧
    (createEvent db hostId { body with capacity := some "0" }).1
        = CreateEventResult.validationError "Capacity must be 1–5000." ∧
    (createEvent db hostId { body with capacity := some "5001" }).1
        = CreateEventResult.validationError "Capacity must be 1–5000." ∧
    (createEvent db hostId { body with capacity := some "1" }).1
        = CreateEventResult.created db.nextEventId ∧
    (createEvent db hostId { body with capacity := some "5000" }).1
        = CreateEventResult.created db.nextEventId := by
  refine ⟨?_, ?_, ?_, ?_, ?_⟩
  · rw [createEvent_textOk db hostId body htitle hdesc hloc hstarts]
    cases hc : capacityValue body.capacity with
    | none => simp
    | some c =>
      by_cases hb : (JSFinite.lt c ⟨1, 0⟩ || JSFinite.lt ⟨5000, 0⟩ c) = true
      · simp only [hb, if_true]
        constructor
        · intro h; cases h
        · rintro ⟨c2, hc2, hl1, hl2⟩
          cases Option.some.inj hc2
          rw [hl1, hl2] at hb
          cases hb
      · rw [Bool.not_eq_true, Bool.or_eq_false_iff] at hb
        simp only [Bool.or_eq_false_iff, hb.1, hb.2, Bool.or_self, if_false]
        exact ⟨fun _ => ⟨c, rfl, hb.1, hb.2⟩, fun _ => rfl⟩
  · rw [createEvent_textOk db hostId { body with capacity := some "0" } htitle hdesc hloc hstarts,
      show capacityValue (some "0") = some ⟨0, 0⟩ from by decide]
    rfl
  · rw [createEvent_textOk db hostId { body with capacity := some "5001" } htitle hdesc hloc
      hstarts, show capacityValue (some "5001") = some ⟨5001, 0⟩ from by decide]
    rfl
  · rw [createEvent_textOk db hostId { body with capacity := some "1" } htitle hdesc hloc hstarts,
      show capacityValue (some "1") = some ⟨1, 0⟩ from by decide]
    rfl
  · rw [createEvent_textOk db hostId { body with capacity := some "5000" } htitle hdesc hloc
      hstarts, show capacityValue (some "5000") = some ⟨5000, 0⟩ from by decide]
    rfl

/-- Witness for C3 amended at concrete valid text fields. -/
theorem createEvent_capacity_validation_witness :
    jsTrim ((bodyCap (some "1")).title.getD "") ≠ "" ∧
    falsyOpt (bodyCap (some "1")).starts_at = false ∧
    (((createEvent dbSeed 1 (bodyCap (some "1"))).1 = CreateEventResult.created dbSeed.nextEventId ↔
      ∃ c, capacityValue (bodyCap (some "1")).capacity = some c ∧
        JSFinite.lt c ⟨1, 0⟩ = false ∧ JSFinite.lt ⟨5000, 0⟩ c = false) ∧
    (createEvent dbSeed 1 { bodyCap (some "1") with capacity := some "0" }).1
        = CreateEventResult.validationError "Capacity must be 1–5000." ∧
    (createEvent dbSeed 1 { bodyCap (some "1") with capacity := some "5001" }).1
        = CreateEventResult.validationError "Capacity must be 1–5000." ∧
    (createEvent dbSeed 1 { bodyCap (some "1") with capacity := some "1" }).1
        = CreateEventResult.created dbSeed.nextEventId ∧
    (createEvent dbSeed 1 { bodyCap (some "1") with capacity := some "5000" }).1
        = CreateEventResult.created dbSeed.nextEventId) :=
  ⟨by decide, by decide,
    createEvent_capacity_validation dbSeed 1 (bodyCap (some "1"))
      (by decide) (by decide) (by decide) (by decide)⟩

/-- Counterexample to C4 as stated: a starts_at field consisting of one space
is empty after trimming, yet creation succeeds, and the stored value is the
untrimmed space, so starts_at is neither trimmed nor validated for
whitespace-only content. -/
theorem createEvent_whitespace_startsAt_counterexample :
    jsTrim " " = "" ∧
    (createEvent dbSeed 1 ⟨some "T", some "D", some "L", some " ", some "5"⟩).1
        = CreateEventResult.created 1 ∧
    ((createEvent dbSeed 1 ⟨some "T", some "D", some "L", some " ", some "5"⟩).2.events.map
        Event.starts_at) = [" "] := by
  decide

/-- C4 amended: title, description and location are trimmed, stored trimmed,
and must be non-empty after trimming; starts_at is only checked for being
absent or the empty string and on success is stored verbatim, untrimmed. -/
theorem createEvent_trim_behavior (db : DB) (hostId : Nat) (body : CreateEventBody) :
    ((createEvent db hostId body).1
        = CreateEventResult.validationError "Fill all required fields." ↔
      (jsTrim (body.title.getD "") = "" ∨ jsTrim (body.description.getD "") = "" ∨
       jsTrim (body.location.getD "") = "" ∨ falsyOpt body.starts_at = true)) ∧
    (∀ eventId, (createEvent db hostId body).1 = CreateEventResult.created eventId →
      ∃ e, (createEvent db hostId body).2.events = db.events ++ [e] ∧
        e.title = jsTrim (body.title.getD "") ∧
        e.description = jsTrim (body.description.getD "") ∧
        e.location = jsTrim (body.location.getD "") ∧
        e.starts_at = body.starts_at.getD "") := by
  by_cases hcond : (jsTrim (body.title.getD "") == "" || jsTrim (body.description.getD "") == ""
      || jsTrim (body.location.getD "") == "" || falsyOpt body.starts_at) = true
  · have hres : createEvent db hostId body
        = (CreateEventResult.validationError "Fill all required fields.", db) := by
      simp [createEvent, hcond]
    constructor
    · rw [hres]
      simp only [true_iff]
      simpa [beq_iff_eq, or_assoc] using hcond
    · intro eventId h
      rw [hres] at h
      cases h
  · rw [Bool.not_eq_true] at hcond
    have hres := hcond
    simp only [Bool.or_eq_false_iff] at hres
    obtain ⟨⟨⟨h1, h2⟩, h3⟩, h4⟩ := hres
    rw [beq_eq_false_iff_ne] at h1 h2 h3
    have hmain := createEvent_textOk db hostId body h1 h2 h3 h4
    constructor
    · rw [hmain]
      cases hc : capacityValue body.capacity with
      | none =>
        simp only [iff_iff_implies_and_implies]
        constructor
        · intro h
          exact absurd (CreateEventResult.validationError.inj h) (by decide)
        · rintro (h | h | h | h)
          · exact absurd h h1
          · exact absurd h h2
          · exact absurd h h3
          · rw [h4] at h; cases h
      | some c =>
        by_cases hb : (JSFinite.lt c ⟨1, 0⟩ || JSFinite.lt ⟨5000, 0⟩ c) = true
        · simp only [hb, if_true, iff_iff_implies_and_implies]
          constructor
          · intro h
            exact absurd (CreateEventResult.validationError.inj h) (by decide)
          · rintro (h | h | h | h)
            · exact absurd h h1
            · exact absurd h h2
            · exact absurd h h3
            · rw [h4] at h; cases h
        · rw [Bool.not_eq_true] at hb
          simp only [hb, if_false, iff_iff_implies_and_implies]
          constructor
          · intro h; cases h
          · rintro (h | h | h | h)
            · exact absurd h h1
            · exact absurd h h2
            · exact absurd h h3
            · rw [h4] at h; cases h
    · intro eventId h
      rw [hmain] at h ⊢
      cases hc : capacityValue body.capacity with
      | none => rw [hc] at h; simp at h
      | some c =>
        rw [hc] at h
        dsimp only at h ⊢
        by_cases hb : (JSFinite.lt c ⟨1, 0⟩ || JSFinite.lt ⟨5000, 0⟩ c) = true
        · rw [if_pos hb] at h; cases h
        · rw [if_neg hb] at h ⊢
          exact ⟨_, rfl, rfl, rfl, rfl, rfl⟩

/-- Witness for C4 amended at a concrete body whose fields carry surrounding
whitespace. -/
theorem createEvent_trim_behavior_witness :
    (((createEvent dbSeed 1 ⟨some " T ", some " D ", some " L ", some "2030-01-01", some "5"⟩).1
        = CreateEventResult.validationError "Fill all required fields." ↔
      (jsTrim " T " = "" ∨ jsTrim " D " = "" ∨ jsTrim " L " = "" ∨
        falsyOpt (some "2030-01-01") = true)) ∧
    (∀ eventId,
      (createEvent dbSeed 1 ⟨some " T ", some " D ", some " L ", some "2030-01-01", some "5"⟩).1
          = CreateEventResult.created eventId →
      ∃ e, (createEvent dbSeed 1
              ⟨some " T ", some " D ", some " L ", some "2030-01-01", some "5"⟩).2.events
            = dbSeed.events ++ [e] ∧
        e.title = jsTrim " T " ∧ e.description = jsTrim " D " ∧ e.location = jsTrim " L " ∧
        e.starts_at = (some "2030-01-01").getD "")) ∧
    (createEvent dbSeed 1 ⟨some " T ", some " D ", some " L ", some "2030-01-01", some "5"⟩).1
        = CreateEventResult.created 1 :=
  ⟨createEvent_trim_behavior dbSeed 1 ⟨some " T ", some " D ", some " L ", some "2030-01-01",
    some "5"⟩, by decide⟩

/-- C10: a capacity field that is absent or the empty string does not fail
validation: the expression Number(capacity or-else 50) falls back to 50, which
passes the range check, and the event is created with capacity 50. -/
theorem createEvent_default_capacity (db : DB) (hostId : Nat) (body : CreateEventBody)
    (htitle : jsTrim (body.title.getD "") ≠ "")
    (hdesc : jsTrim (body.description.getD "") ≠ "")
    (hloc : jsTrim (body.location.getD "") ≠ "")
    (hstarts : falsyOpt body.starts_at = false)
    (hcap : body.capacity = none ∨ body.capacity = some "") :
    (createEvent db hostId body).1 = CreateEventResult.created db.nextEventId ∧
    ∃ e, (createEvent db hostId body).2.events = db.events ++ [e] ∧
      e.capacity = ⟨50, 0⟩ := by
  have hc : capacityValue body.capacity = some ⟨50, 0⟩ := by
    rcases hcap with h | h <;> simp [capacityValue, h]
  rw [createEvent_textOk db hostId body htitle hdesc hloc hstarts, hc]
  dsimp only
  rw [if_neg (by decide : ¬((JSFinite.lt ⟨50, 0⟩ ⟨1, 0⟩ || JSFinite.lt ⟨5000, 0⟩ ⟨50, 0⟩) = true))]
  exact ⟨rfl, _, rfl, rfl⟩

theorem char_toLower_idem (c : Char) : c.toLower.toLower = c.toLower := by
  simp only [Char.toLower]
  by_cases h : c.toNat ≥ 65 ∧ c.toNat ≤ 90
  · rw [if_pos h]
    have hv : Nat.isValidChar (c.toNat + 32) := Or.inl (by omega)
    have ht : (Char.ofNat (c.toNat + 32)).toNat = c.toNat + 32 := by
      simp [Char.ofNat, hv]
      rfl
    rw [ht, if_neg (by omega)]
  · rw [if_neg h, if_neg h]

theorem jsToLower_idem (s : String) : jsToLower (jsToLower s) = jsToLower s := by
  unfold jsToLower
  rw [show (String.mk (s.toList.map Char.toLower)).toList = s.toList.map Char.toLower from rfl,
    List.map_map]
  congr 1
  exact List.map_congr_left (fun c _ => char_toLower_idem c)

/-- C6: signup trims and lower-cases the email before storage, rejects empty
name, email or password with the validation error, rejects an email whose
normalisation is already stored with the duplicate-email error while changing
nothing, and on success appends a user whose stored email is the normalised
input and distinct from every stored email; consequently lower-casedness and
uniqueness of the stored emails are preserved by every signup. -/
theorem signUp_email_normalization (db : DB) (name email password : Option String) :
    ((signUp db name email password).1 = SignUpResult.validationError "Fill all fields." ↔
      (jsTrim (name.getD "") = "" ∨ normEmail email = "" ∨ password.getD "" = "")) ∧
    (jsTrim (name.getD "") ≠ "" → normEmail email ≠ "" → password.getD "" ≠ "" →
      (∃ u ∈ db.users, u.email = normEmail email) →
      (signUp db name email password).1 = SignUpResult.duplicateEmail "Email already registered." ∧
      (signUp db name email password).2 = db) ∧
    (∀ userId, (signUp db name email password).1 = SignUpResult.created userId →
      ∃ u, (signUp db name email password).2.users = db.users ++ [u] ∧
        u.email = normEmail email ∧ ∀ v ∈ db.users, v.email ≠ u.email) ∧
    (emailsLower db → emailsLower (signUp db name email password).2) ∧
    (emailsUnique db → emailsUnique (signUp db name email password).2) := by
  by_cases hcond : (jsTrim (name.getD "") == "" || jsToLower (jsTrim (email.getD "")) == ""
      || (password.getD "") == "") = true
  · have hres : signUp db name email password
        = (SignUpResult.validationError "Fill all fields.", db) := by
      simp [signUp, hcond]
    refine ⟨?_, ?_, ?_, ?_, ?_⟩
    · rw [hres]
      simp only [true_iff]
      simpa [normEmail, beq_iff_eq, or_assoc] using hcond
    · intro h1 h2 h3 _
      exfalso
      simp only [Bool.or_eq_true, beq_iff_eq] at hcond
      rcases hcond with (h | h) | h
      exacts [h1 h, h2 h, h3 h]
    · intro userId h
      rw [hres] at h
      cases h
    · intro hl
      rw [hres]
      exact hl
    · intro hu
      rw [hres]
      exact hu
  · rw [Bool.not_eq_true] at hcond
    have hfacts := hcond
    simp only [Bool.or_eq_false_iff] at hfacts
    obtain ⟨⟨h1, h2⟩, h3⟩ := hfacts
    rw [beq_eq_false_iff_ne] at h1 h2 h3
    have hmain : signUp db name email password =
        match db.users.find? (fun u => u.email == jsToLower (jsTrim (email.getD ""))) with
        | some _ => (SignUpResult.duplicateEmail "Email already registered.", db)
        | none =>
          (SignUpResult.created db.nextUserId,
            { db with
              users := db.users ++ [⟨db.nextUserId, jsTrim (name.getD ""),
                jsToLower (jsTrim (email.getD "")), bcryptHash (password.getD "")⟩],
              nextUserId := db.nextUserId + 1 }) := by
      simp [signUp, hcond]
    refine ⟨?_, ?_, ?_, ?_, ?_⟩
    · rw [hmain]
      cases hf : db.users.find? (fun u => u.email == jsToLower (jsTrim (email.getD ""))) with
      | none =>
        dsimp only
        constructor
        · intro h; cases h
        · rintro (h | h | h)
          exacts [absurd h h1, absurd h h2, absurd h h3]
      | some u =>
        dsimp only
        constructor
        · intro h; cases h
        · rintro (h | h | h)
          exacts [absurd h h1, absurd h h2, absurd h h3]
    · intro _ _ _ hex
      obtain ⟨u, hu_mem, hu_eq⟩ := hex
      rw [hmain]
      cases hf : db.users.find? (fun v => v.email == jsToLower (jsTrim (email.getD ""))) with
      | none =>
        exfalso
        rw [List.find?_eq_none] at hf
        exact hf u hu_mem (by simp [beq_iff_eq]; exact hu_eq)
      | some v => exact ⟨rfl, rfl⟩
    · intro userId h
      rw [hmain] at h ⊢
      revert h
      cases hf : db.users.find? (fun v => v.email == jsToLower (jsTrim (email.getD ""))) with
      | some v => intro h; dsimp only at h; cases h
      | none =>
        intro _
        dsimp only
        refine ⟨⟨db.nextUserId, jsTrim (name.getD ""), jsToLower (jsTrim (email.getD "")),
          bcryptHash (password.getD "")⟩, rfl, rfl, ?_⟩
        intro v hv
        rw [List.find?_eq_none] at hf
        have := hf v hv
        simpa [beq_iff_eq] using this
    · intro hl
      rw [hmain]
      cases hf : db.users.find? (fun v => v.email == jsToLower (jsTrim (email.getD ""))) with
      | some v => exact hl
      | none =>
        dsimp only
        intro u hu
        rcases List.mem_append.mp hu with h | h
        · exact hl u h
        · rw [List.mem_singleton.mp h]
          exact jsToLower_idem (jsTrim (email.getD ""))
    · intro hu
      rw [hmain]
      cases hf : db.users.find? (fun v => v.email == jsToLower (jsTrim (email.getD ""))) with
      | some v => exact hu
      | none =>
        unfold emailsUnique
        dsimp only
        rw [List.map_append]
        refine List.Nodup.append hu (List.nodup_singleton _) ?_
        intro x hx hx2
        rw [List.mem_singleton.mp hx2] at hx
        obtain ⟨v, hv, hveq⟩ := List.mem_map.mp hx
        rw [List.find?_eq_none] at hf
        exact hf v hv (by simp [beq_iff_eq]; exact hveq)

/-- Witness for C6: a concrete signup against a database already holding
alice at x.com, with a differently-cased and padded email, is rejected as a
duplicate. -/
theorem signUp_email_normalization_witness :
    (((signUp dbSeed (some "Bob") (some " AlIcE@X.com ") (some "pw2")).1
        = SignUpResult.validationError "Fill all fields." ↔
      (jsTrim ((some "Bob").getD "") = "" ∨ normEmail (some " AlIcE@X.com ") = "" ∨
        (some "pw2").getD "" = "")) ∧
    (jsTrim ((some "Bob").getD "") ≠ "" → normEmail (some " AlIcE@X.com ") ≠ "" →
      (some "pw2").getD "" ≠ "" →
      (∃ u ∈ dbSeed.users, u.email = normEmail (some " AlIcE@X.com ")) →
      (signUp dbSeed (some "Bob") (some " AlIcE@X.com ") (some "pw2")).1
          = SignUpResult.duplicateEmail "Email already registered." ∧
      (signUp dbSeed (some "Bob") (some " AlIcE@X.com ") (some "pw2")).2 = dbSeed) ∧
    (∀ userId, (signUp dbSeed (some "Bob") (some " AlIcE@X.com ") (some "pw2")).1
          = SignUpResult.created userId →
      ∃ u, (signUp dbSeed (some "Bob") (some " AlIcE@X.com ") (some "pw2")).2.users
            = dbSeed.users ++ [u] ∧
        u.email = normEmail (some " AlIcE@X.com ") ∧ ∀ v ∈ dbSeed.users, v.email ≠ u.email) ∧
    (emailsLower dbSeed →
      emailsLower (signUp dbSeed (some "Bob") (some " AlIcE@X.com ") (some "pw2")).2) ∧
    (emailsUnique dbSeed →
      emailsUnique (signUp dbSeed (some "Bob") (some " AlIcE@X.com ") (some "pw2")).2)) ∧
    (signUp dbSeed (some "Bob") (some " AlIcE@X.com ") (some "pw2")).1
        = SignUpResult.duplicateEmail "Email already registered." :=
  ⟨signUp_email_normalization dbSeed (some "Bob") (some " AlIcE@X.com ") (some "pw2"), by decide⟩

/-- C7: login succeeds exactly when some stored user carries the normalised
email and the password matches that user's stored digest, and every failure,
whether the email is unknown or the password wrong, renders the one generic
message. -/
theorem logIn_generic_error (db : DB) (email password : Option String)
    (hnodup : (db.users.map User.email).Nodup) :
    ((∃ userId, logIn db email password = LogInResult.success userId) ↔
      ∃ u ∈ db.users, u.email = normEmail email ∧
        bcryptCompare (password.getD "") u.password_hash = true) ∧
    (∀ m, logIn db email password = LogInResult.invalidCredentials m →
      m = "Invalid email or password.") := by
  have hmain : logIn db email password =
      match db.users.find? (fun u => u.email == normEmail email) with
      | none => LogInResult.invalidCredentials "Invalid email or password."
      | some u =>
        if bcryptCompare (password.getD "") u.password_hash then LogInResult.success u.id
        else LogInResult.invalidCredentials "Invalid email or password." := by
    simp [logIn]
  rw [hmain]
  constructor
  · constructor
    · rintro ⟨userId, h⟩
      revert h
      cases hf : db.users.find? (fun u => u.email == normEmail email) with
      | none => intro h; dsimp only at h; cases h
      | some u =>
        intro h
        dsimp only at h
        by_cases hb : bcryptCompare (password.getD "") u.password_hash = true
        · exact ⟨u, List.mem_of_find?_eq_some hf, by simpa using List.find?_some hf, hb⟩
        · rw [Bool.not_eq_true] at hb
          rw [if_neg (by simp [hb])] at h
          cases h
    · rintro ⟨u, hu_mem, hu_eq, hu_cmp⟩
      cases hf : db.users.find? (fun v => v.email == normEmail email) with
      | none =>
        exfalso
        rw [List.find?_eq_none] at hf
        exact hf u hu_mem (by simp [beq_iff_eq]; exact hu_eq)
      | some v =>
        have hv_mem := List.mem_of_find?_eq_some hf
        have hv_eq : v.email = normEmail email := by simpa using List.find?_some hf
        have huv : u = v :=
          List.inj_on_of_nodup_map hnodup hu_mem hv_mem (hu_eq.trans hv_eq.symm)
        refine ⟨v.id, ?_⟩
        dsimp only
        rw [if_pos (huv ▸ hu_cmp)]
  · intro m h
    revert h
    cases hf : db.users.find? (fun v => v.email == normEmail email) with
    | none =>
      intro h
      dsimp only at h
      exact (LogInResult.invalidCredentials.inj h).symm
    | some u =>
      intro h
      dsimp only at h
      by_cases hb : bcryptCompare (password.getD "") u.password_hash = true
      · rw [if_pos hb] at h
        cases h
      · rw [Bool.not_eq_true] at hb
        rw [if_neg (by simp [hb])] at h
        exact (LogInResult.invalidCredentials.inj h).symm

/-- Witness for C7: login with padded differently-cased email and the right
password succeeds against the seeded database. -/
theorem logIn_generic_error_witness :
    (dbSeed.users.map User.email).Nodup ∧
    (((∃ userId, logIn dbSeed (some " Alice@X.com") (some "pw") = LogInResult.success userId) ↔
      ∃ u ∈ dbSeed.users, u.email = normEmail (some " Alice@X.com") ∧
        bcryptCompare ((some "pw").getD "") u.password_hash = true) ∧
    (∀ m, logIn dbSeed (some " Alice@X.com") (some "pw") = LogInResult.invalidCredentials m →
      m = "Invalid email or password.")) ∧
    logIn dbSeed (some " Alice@X.com") (some "pw") = LogInResult.success 1 :=
  ⟨by decide, logIn_generic_error dbSeed (some " Alice@X.com") (some "pw") (by decide), by decide⟩

/-- Witness for C10 at a concrete body with an absent capacity field. -/
theorem createEvent_default_capacity_witness :
    jsTrim ((bodyCap none).title.getD "") ≠ "" ∧
    falsyOpt (bodyCap none).starts_at = false ∧
    ((bodyCap none).capacity = none ∨ (bodyCap none).capacity = some "") ∧
    ((createEvent dbSeed 1 (bodyCap none)).1 = CreateEventResult.created dbSeed.nextEventId ∧
    ∃ e, (createEvent dbSeed 1 (bodyCap none)).2.events = dbSeed.events ++ [e] ∧
      e.capacity = ⟨50, 0⟩) :=
  ⟨by decide, by decide, Or.inl rfl,
    createEvent_default_capacity dbSeed 1 (bodyCap none)
      (by decide) (by decide) (by decide) (by decide) (Or.inl rfl)⟩

theorem charListLe_cons (a b : Char) (as bs : List Char) :
    charListLe (a :: as) (b :: bs)
      = if a.toNat = b.toNat then charListLe as bs else decide (a.toNat < b.toNat) := rfl

theorem charListLe_total : ∀ as bs : List Char,
    charListLe as bs = true ∨ charListLe bs as = true := by
  intro as
  induction as with
  | nil => intro bs; left; rfl
  | cons a as ih =>
    intro bs
    cases bs with
    | nil => right; rfl
    | cons b bs =>
      rw [charListLe_cons, charListLe_cons]
      by_cases h : a.toNat = b.toNat
      · rw [if_pos h, if_pos h.symm]
        exact ih bs
      · rw [if_neg h, if_neg (fun hh => h hh.symm)]
        rcases Nat.lt_or_ge a.toNat b.toNat with hlt | hge
        · left; exact decide_eq_true hlt
        · right; exact decide_eq_true (lt_of_le_of_ne hge (fun hh => h hh.symm))

theorem charListLe_trans : ∀ as bs cs : List Char,
    charListLe as bs = true → charListLe bs cs = true → charListLe as cs = true := by
  intro as
  induction as with
  | nil => intro bs cs h1 h2; rfl
  | cons a as ih =>
    intro bs cs h1 h2
    cases bs with
    | nil => simp [charListLe] at h1
    | cons b bs =>
      cases cs with
      | nil => simp [charListLe] at h2
      | cons c cs =>
        rw [charListLe_cons] at h1 h2 ⊢
        by_cases hab : a.toNat = b.toNat
        · rw [if_pos hab] at h1
          by_cases hbc : b.toNat = c.toNat
          · rw [if_pos hbc] at h2
            rw [if_pos (hab.trans hbc)]
            exact ih bs cs h1 h2
          · rw [if_neg hbc] at h2
            have hlt : b.toNat < c.toNat := of_decide_eq_true h2
            rw [if_neg (by omega)]
            exact decide_eq_true (by omega)
        · rw [if_neg hab] at h1
          have hlt1 : a.toNat < b.toNat := of_decide_eq_true h1
          by_cases hbc : b.toNat = c.toNat
          · rw [if_neg (by omega)]
            exact decide_eq_true (by omega)
          · rw [if_neg hbc] at h2
            have hlt2 : b.toNat < c.toNat := of_decide_eq_true h2
            rw [if_neg (by omega)]
            exact decide_eq_true (by omega)

theorem keyLe_total : ∀ x y : Option String, keyLe x y = true ∨ keyLe y x = true := by
  intro x y
  cases x with
  | none => left; rfl
  | some a =>
    cases y with
    | none => right; rfl
    | some b => exact charListLe_total a.toList b.toList

theorem keyLe_trans : ∀ x y z : Option String,
    keyLe x y = true → keyLe y z = true → keyLe x z = true := by
  intro x y z h1 h2
  cases x with
  | none => rfl
  | some a =>
    cases y with
    | none => simp [keyLe] at h1
    | some b =>
      cases z with
      | none => simp [keyLe] at h2
      | some c => exact charListLe_trans a.toList b.toList c.toList h1 h2

theorem rowLe_total (r1 r2 : EventRow) : rowLe r1 r2 = true ∨ rowLe r2 r1 = true :=
  keyLe_total (eventKey r1) (eventKey r2)

theorem rowLe_trans (r1 r2 r3 : EventRow) (h1 : rowLe r1 r2 = true) (h2 : rowLe r2 r3 = true) :
    rowLe r1 r3 = true :=
  keyLe_trans _ _ _ h1 h2

/-- Counterexample to C5 as stated: two events whose stored timestamps differ
only in the date separator and the final second; under the datetime ordering
the code uses, the T-separated earlier timestamp (event 1) comes first, but
under plain lexicographic order on the stored representation the
space-separated string sorts first (event 2), so listEvents does not use
lexicographic order on the stored timestamps. -/
theorem listEvents_lex_counterexample :
    ((listEvents dbTwoTimes).map (fun r => r.event.id)) = [1, 2] ∧
    ((listEventsSpecLex dbTwoTimes).map (fun r => r.event.id)) = [2, 1] ∧
    strLe "2030-01-02 00:00:01" "2030-01-02T00:00:00" = true ∧
    listEvents dbTwoTimes ≠ listEventsSpecLex dbTwoTimes := by
  decide

/-- C5 amended: listEvents returns exactly the events, joined with their
hosts, sorted ascending by the SQLite datetime parse of the stored starts_at
(an unparseable timestamp yields NULL and sorts first), not by plain
lexicographic order on the stored representation; on timestamps that datetime
maps to themselves, the canonical YYYY-MM-DD HH:MM:SS form, the row order is
exactly the lexicographic order, so three such events with T1 below T2 below
T3 come out in that order. -/
theorem listEvents_datetime_order (db : DB) :
    (listEvents db).Perm (joinRows db) ∧
    List.Sorted (fun r1 r2 => rowLe r1 r2 = true) (listEvents db) ∧
    (∀ r1 r2 : EventRow, sqliteDatetime r1.event.starts_at = some r1.event.starts_at →
      sqliteDatetime r2.event.starts_at = some r2.event.starts_at →
      rowLe r1 r2 = strLe r1.event.starts_at r2.event.starts_at) := by
  refine ⟨List.perm_insertionSort _ _, ?_, ?_⟩
  · haveI : IsTotal EventRow (fun r1 r2 => rowLe r1 r2 = true) := ⟨rowLe_total⟩
    haveI : IsTrans EventRow (fun r1 r2 => rowLe r1 r2 = true) := ⟨rowLe_trans⟩
    exact List.sorted_insertionSort _ _
  · intro r1 r2 h1 h2
    unfold rowLe eventKey
    rw [h1, h2]
    rfl

/-- Witness for C5 amended at a concrete database: the canonical-timestamp
comparison premises are discharged for the two rows of dbTwoTimes. -/
theorem listEvents_datetime_order_witness :
    ((listEvents dbTwoTimes).Perm (joinRows dbTwoTimes) ∧
    List.Sorted (fun r1 r2 => rowLe r1 r2 = true) (listEvents dbTwoTimes) ∧
    (∀ r1 r2 : EventRow, sqliteDatetime r1.event.starts_at = some r1.event.starts_at →
      sqliteDatetime r2.event.starts_at = some r2.event.starts_at →
      rowLe r1 r2 = strLe r1.event.starts_at r2.event.starts_at)) ∧
    sqliteDatetime "2030-01-02 00:00:01" = some "2030-01-02 00:00:01" :=
  ⟨listEvents_datetime_order dbTwoTimes, by decide⟩

end EventHub
